import Mathlib

/-!
Verification of the traffic-analytics-engine server against its
natural-language specification.

The definitions below are a shallow embedding of the JavaScript source:

* `packages/server/src/websocket/rate-limiter.js` — token-bucket rate
  limiter (`TokenBucket`, `RateLimiter`), embedded per key: every
  `RateLimiter` method indexes its three `Map`s by one `sessionId`, so a
  key's bucket, violation record and ban record form an independent
  per-key state (`LimiterEntry`).
* `packages/server/src/routes/admin.js` — admin HTTP routes with the
  `preHandler` API-key hook.
* the main server file (`TrafficAnalyticsServer`) — the `POST /beacon`
  handler.
* the WebSocket server (`WebSocketServer`) — `handleMessage`,
  `handleHandshake` and the connection map.

Times are wall-clock milliseconds as natural numbers; each top-level
call is modelled with a single `now` (the source reads `Date.now()`
several times inside one handler, always within the same instant for
the properties proved here).  JavaScript float arithmetic in
`getViolationStats` is embedded exactly via `JsNum` (a rational, or the
IEEE `Infinity` / `NaN` produced by division by zero).
-/

/-- `TokenBucket` from rate-limiter.js: `capacity`, current `tokens`,
`refillRate` tokens per `refillInterval` ms, `lastRefill` timestamp. -/
structure TokenBucket where
  capacity : ℕ
  tokens : ℕ
  refillRate : ℕ
  refillInterval : ℕ
  lastRefill : ℕ
deriving DecidableEq, Repr

namespace TokenBucket

/-- The constructor: `this.tokens = capacity`, `this.lastRefill = Date.now()`. -/
def create (capacity refillRate refillInterval now : ℕ) : TokenBucket :=
  { capacity := capacity, tokens := capacity, refillRate := refillRate
    refillInterval := refillInterval, lastRefill := now }

/-- `refill()`: add `floor((now - lastRefill) / refillInterval) * refillRate`
tokens, capped at `capacity`, and advance `lastRefill`, but only when at
least one interval elapsed.  (When the clock did not advance past one
interval, JS computes `intervalsElapsed <= 0` and skips the update; with
truncated subtraction/division the embedding skips in the same cases.) -/
def refill (b : TokenBucket) (now : ℕ) : TokenBucket :=
  let intervalsElapsed := (now - b.lastRefill) / b.refillInterval
  if 0 < intervalsElapsed then
    { b with tokens := min b.capacity (b.tokens + intervalsElapsed * b.refillRate)
             lastRefill := now }
  else b

/-- `tryConsume(tokens)`: refill, then consume if enough tokens. -/
def tryConsume (b : TokenBucket) (now : ℕ) (cost : ℕ) : Bool × TokenBucket :=
  let b1 := b.refill now
  if cost ≤ b1.tokens then (true, { b1 with tokens := b1.tokens - cost })
  else (false, b1)

end TokenBucket

/-- Resolved `RateLimiter` options. -/
structure RLOptions where
  capacity : ℕ
  refillRate : ℕ
  refillInterval : ℕ
  maxEventsPerSecond : ℕ
  autoThrottle : Bool
  throttleLatency : ℕ
  banThreshold : ℕ
  banDuration : ℕ
deriving DecidableEq, Repr

/-- The options object passed to `new RateLimiter(options)`; a `none`
field is an absent key. -/
structure RLOptionsInput where
  capacity : Option ℕ := none
  refillRate : Option ℕ := none
  refillInterval : Option ℕ := none
  maxEventsPerSecond : Option ℕ := none
  autoThrottle : Option Bool := none
  throttleLatency : Option ℕ := none
  banThreshold : Option ℕ := none
  banDuration : Option ℕ := none
deriving DecidableEq, Repr

/-- The `RateLimiter` constructor builds
`{capacity: options.capacity || 10, …, ...options}`: the trailing spread
re-applies every key present in `options`, so a present key wins with its
raw value (even a falsy `0`) and an absent key gets the default
(`capacity` 10, `refillRate` 5, `refillInterval` 1000,
`maxEventsPerSecond` 5, `autoThrottle` true, `throttleLatency` 2000,
`banThreshold` 50, `banDuration` 300000). -/
def mkRLOptions (i : RLOptionsInput) : RLOptions :=
  { capacity := i.capacity.getD 10
    refillRate := i.refillRate.getD 5
    refillInterval := i.refillInterval.getD 1000
    maxEventsPerSecond := i.maxEventsPerSecond.getD 5
    autoThrottle := i.autoThrottle.getD true
    throttleLatency := i.throttleLatency.getD 2000
    banThreshold := i.banThreshold.getD 50
    banDuration := i.banDuration.getD 300000 }

/-- The options the WebSocket server passes to its `RateLimiter`
(websocket server constructor). -/
def wsLimiterOptions : RLOptions :=
  mkRLOptions { capacity := some 20, refillRate := some 5
                maxEventsPerSecond := some 5, autoThrottle := some true
                throttleLatency := some 2000, banThreshold := some 50
                banDuration := some 300000 }

/-- Violation record: `{count, firstViolation, lastViolation}`. -/
structure Violation where
  count : ℕ
  firstViolation : ℕ
  lastViolation : ℕ
deriving DecidableEq, Repr

/-- Ban record: `{bannedAt, duration, reason}`. -/
structure Ban where
  bannedAt : ℕ
  duration : ℕ
  reason : String
deriving DecidableEq, Repr

/-- The per-key slice of a `RateLimiter`'s three maps (`buckets`,
`violations`, `bannedSessions`) for one `sessionId`; `none` means the
map has no entry for the key. -/
structure LimiterEntry where
  bucket : Option TokenBucket := none
  violation : Option Violation := none
  ban : Option Ban := none
deriving DecidableEq, Repr

/-- `isBanned(sessionId)`: `false` with no entry; if
`now - bannedAt >= duration` the expired ban is deleted and the result
is `false`; otherwise `true`. -/
def isBannedCheck (now : ℕ) (e : LimiterEntry) : Bool × LimiterEntry :=
  match e.ban with
  | none => (false, e)
  | some b =>
    if b.duration ≤ now - b.bannedAt then (false, { e with ban := none })
    else (true, e)

/-- `getBanTimeRemaining(sessionId)`: `max(0, duration - elapsed)`
(truncated subtraction supplies the clamp at 0). -/
def getBanTimeRemaining (now : ℕ) (e : LimiterEntry) : ℕ :=
  match e.ban with
  | none => 0
  | some b => b.duration - (now - b.bannedAt)

/-- `getBucket(sessionId)`: lazily create a full bucket on first use. -/
def getOrCreateBucket (opts : RLOptions) (now : ℕ) (e : LimiterEntry) :
    TokenBucket × LimiterEntry :=
  match e.bucket with
  | some b => (b, e)
  | none =>
    let b := TokenBucket.create opts.capacity opts.refillRate opts.refillInterval now
    (b, { e with bucket := some b })

/-- `ban(sessionId, duration)`. -/
def banKey (now duration : ℕ) (e : LimiterEntry) : LimiterEntry :=
  { e with ban := some { bannedAt := now, duration := duration
                         reason := "excessive_rate_limit_violations" } }

/-- `recordViolation(sessionId)`: create-or-increment the violation
record; when `count` reaches `banThreshold`, create a ban of
`banDuration`. -/
def recordViolation (opts : RLOptions) (now : ℕ) (e : LimiterEntry) :
    Violation × LimiterEntry :=
  let v0 := e.violation.getD { count := 0, firstViolation := now, lastViolation := now }
  let v1 := { v0 with count := v0.count + 1, lastViolation := now }
  let e1 := { e with violation := some v1 }
  if opts.banThreshold ≤ v1.count then (v1, banKey now opts.banDuration e1)
  else (v1, e1)

/-- `calculateRetryAfter(bucket)`:
`ceil(1 / refillRate) * refillInterval`. -/
def retryAfterOf (opts : RLOptions) : ℕ :=
  ((1 + opts.refillRate - 1) / opts.refillRate) * opts.refillInterval

/-- The object `isAllowed` returns; absent keys are `none`. -/
structure RLResult where
  allowed : Bool
  reason : Option String := none
  retryAfter : Option ℕ := none
  tokensAvailable : Option ℕ := none
  tokensRemaining : Option ℕ := none
deriving DecidableEq, Repr

/-- `isAllowed(sessionId, cost)`: banned check (which may passively
delete an expired ban), then lazy bucket creation, `tryConsume`, and on
denial `recordViolation`.  `getTokens()` inside the result is a second
refill at the same `now`, which cannot change the bucket again, so the
reported counts equal the post-consume token field. -/
def isAllowedR (opts : RLOptions) (now cost : ℕ) (e : LimiterEntry) :
    RLResult × LimiterEntry :=
  let bc := isBannedCheck now e
  if bc.1 then
    ({ allowed := false, reason := some "banned"
       retryAfter := some (getBanTimeRemaining now bc.2) }, bc.2)
  else
    let e1 := bc.2
    let be := getOrCreateBucket opts now e1
    let cb := be.1.tryConsume now cost
    let e3 := { be.2 with bucket := some cb.2 }
    if cb.1 then
      ({ allowed := true, tokensRemaining := some cb.2.tokens }, e3)
    else
      ({ allowed := false, reason := some "rate_limit"
         tokensAvailable := some cb.2.tokens
         retryAfter := some (retryAfterOf opts) }, (recordViolation opts now e3).2)

/-- A JavaScript number as produced by `(count / duration) * 1000`:
a rational when the divisor is nonzero (float rounding idealised as
exact), `Infinity` for `positive / 0`, `NaN` for `0 / 0`. -/
inductive JsNum where
  | fin (q : ℚ)
  | inf
  | nan
deriving DecidableEq, Repr

/-- JavaScript `>` against a number: `Infinity > x` is true,
`NaN > x` is false. -/
def JsNum.gtN (x : JsNum) (m : ℕ) : Bool :=
  match x with
  | fin q => decide ((m : ℚ) < q)
  | inf => true
  | nan => false

/-- The object `getViolationStats` returns. -/
structure VStats where
  count : ℕ
  eventsPerSecond : JsNum
  shouldThrottle : Bool
  throttleLatency : ℕ
deriving DecidableEq, Repr

/-- `getViolationStats(sessionId)`: `null` without a violation record;
otherwise `eventsPerSecond = (count / (now - firstViolation)) * 1000`
and `shouldThrottle = eventsPerSecond > maxEventsPerSecond`.  The
elapsed time is signed, as in JS. -/
def getViolationStats (opts : RLOptions) (now : ℕ) (e : LimiterEntry) :
    Option VStats :=
  match e.violation with
  | none => none
  | some v =>
    let duration : ℤ := (now : ℤ) - (v.firstViolation : ℤ)
    let eps : JsNum :=
      if duration = 0 then (if v.count = 0 then .nan else .inf)
      else .fin ((v.count : ℚ) * 1000 / (duration : ℚ))
    some { count := v.count, eventsPerSecond := eps
           shouldThrottle := eps.gtN opts.maxEventsPerSecond
           throttleLatency := opts.throttleLatency }

/-- The spec's formula for the auto-throttle signal, written from its
words: `eventsPerSecond = count / max(1, now − firstViolationAt)`.
Declared only to compare against `getViolationStats`. -/
def specEventsPerSecond (count now firstViolationAt : ℕ) : ℚ :=
  (count : ℚ) / max 1 ((now : ℚ) - (firstViolationAt : ℚ))

/-- `unban(sessionId)`: delete the ban record and the violation record. -/
def unbanKey (e : LimiterEntry) : LimiterEntry :=
  { e with ban := none, violation := none }

/-- `reset(sessionId)`: delete the bucket and the violation record
(the ban map is untouched). -/
def resetKey (e : LimiterEntry) : LimiterEntry :=
  { e with bucket := none, violation := none }

/-- A limiter operation on one key, used to quantify over interleaved
call sequences: an `isAllowed` call with some cost, or a direct
`recordViolation`. -/
inductive RLOp where
  | allowOp (cost : ℕ)
  | violOp
deriving DecidableEq, Repr

/-- Apply one timed operation to a key's entry, discarding the result. -/
def applyRLOp (opts : RLOptions) (e : LimiterEntry) (p : ℕ × RLOp) : LimiterEntry :=
  match p.2 with
  | .allowOp cost => (isAllowedR opts p.1 cost e).2
  | .violOp => (recordViolation opts p.1 e).2

/-- Apply a timed operation sequence left to right. -/
def applyRLTrace (opts : RLOptions) (e : LimiterEntry) (tr : List (ℕ × RLOp)) :
    LimiterEntry :=
  tr.foldl (applyRLOp opts) e

/-- Run a sequence of cost-1 `tryConsume` calls at the given times
against one bucket, counting the admitted calls. -/
def consumeRun (b : TokenBucket) (ts : List ℕ) : ℕ × TokenBucket :=
  match ts with
  | [] => (0, b)
  | t :: rest =>
    let cb := b.tryConsume t 1
    let nr := consumeRun cb.2 rest
    ((if cb.1 then 1 else 0) + nr.1, nr.2)

/-- Session modes stored by `updateSessionMode`. -/
inductive Mode where
  | normal
  | upspin
  | downspin
  | terminated
deriving DecidableEq, Repr

/-- A command payload as built by the admin routes. -/
inductive Payload where
  | latencyMs (n : ℕ)
  | terminateReason (s : String)
  | toast (message ty : String) (duration : ℕ)
  | redirectTo (url : String) (newTab : Bool)
deriving DecidableEq, Repr

/-- A command envelope `{id, type, payload}`; `id` is the uuid the
handler generated. -/
structure Command where
  id : String
  ctype : String
  payload : Payload
deriving DecidableEq, Repr

/-- One write performed by an admin handler against Postgres or Redis. -/
inductive AdminEffect where
  | updateMode (hash : String) (m : Mode) (latency : ℕ)
  | publish (hash : String) (cmd : Command)
  | logCommand (hash : String) (cmd : Command)
deriving DecidableEq, Repr

/-- The response an admin route sends. -/
structure AdminResp where
  code : ℕ
  success : Bool := false
  error : Option String := none
  command : Option Command := none
deriving DecidableEq, Repr

/-- The per-hash `mode` column of the sessions table. -/
def SessionStore := String → Option Mode

/-- Modelled from the spec: `postgres.updateSessionMode` lives in
`services/postgres.js`, which is not among the provided sources; the
spec states `terminated` is a sticky terminal state and subsequent
transitions on the same hash are rejected, so the write fails (the
route's `catch` sees the error) when the stored mode is `terminated`,
and otherwise stores the new mode. -/
def updateSessionMode (store : SessionStore) (hash : String) (m : Mode) :
    Except String SessionStore :=
  if store hash = some Mode.terminated then .error "terminated"
  else .ok (fun h => if h = hash then some m else store h)

/-- Result triple of one admin handler: response, session store,
writes in execution order. -/
def AdminOut := AdminResp × SessionStore × List AdminEffect

/-- `POST /admin/sessions/:hash/upspin`: `updateSessionMode(hash,
upspin, 0)`, then publish `SET_LATENCY{latency_ms:0}`, then log; any
thrown error is caught and answered with `500 {error}` (nothing after
the failing await runs). -/
def handleUpspin (store : SessionStore) (hash uuid : String) : AdminOut :=
  match updateSessionMode store hash .upspin with
  | .error msg => ({ code := 500, error := some msg }, store, [])
  | .ok store1 =>
    let cmd : Command := { id := uuid, ctype := "SET_LATENCY", payload := .latencyMs 0 }
    ({ code := 200, success := true, command := some cmd }, store1,
      [.updateMode hash .upspin 0, .publish hash cmd, .logCommand hash cmd])

/-- `POST /admin/sessions/:hash/downspin`: body `latency_ms` defaults
to 2000. -/
def handleDownspin (store : SessionStore) (hash uuid : String)
    (latencyMs : Option ℕ) : AdminOut :=
  let latency := latencyMs.getD 2000
  match updateSessionMode store hash .downspin with
  | .error msg => ({ code := 500, error := some msg }, store, [])
  | .ok store1 =>
    let cmd : Command := { id := uuid, ctype := "SET_LATENCY", payload := .latencyMs latency }
    ({ code := 200, success := true, command := some cmd }, store1,
      [.updateMode hash .downspin latency, .publish hash cmd, .logCommand hash cmd])

/-- `POST /admin/sessions/:hash/terminate`: body `reason` defaults to
"Session terminated by administrator". -/
def handleTerminate (store : SessionStore) (hash uuid : String)
    (reason : Option String) : AdminOut :=
  let r := reason.getD "Session terminated by administrator"
  match updateSessionMode store hash .terminated with
  | .error msg => ({ code := 500, error := some msg }, store, [])
  | .ok store1 =>
    let cmd : Command := { id := uuid, ctype := "TERMINATE", payload := .terminateReason r }
    ({ code := 200, success := true, command := some cmd }, store1,
      [.updateMode hash .terminated 0, .publish hash cmd, .logCommand hash cmd])

/-- `POST /admin/sessions/:hash/notify`: `400` without `message`; the
store is not written, only publish and log. -/
def handleNotify (store : SessionStore) (hash uuid : String)
    (message : Option String) (ty : Option String) (duration : Option ℕ) : AdminOut :=
  match message with
  | none => ({ code := 400, error := some "Message is required" }, store, [])
  | some msg =>
    let cmd : Command := { id := uuid, ctype := "TOAST_ALERT"
                           payload := .toast msg (ty.getD "info") (duration.getD 5000) }
    ({ code := 200, success := true, command := some cmd }, store,
      [.publish hash cmd, .logCommand hash cmd])

/-- `POST /admin/sessions/:hash/redirect`: `400` without `url`. -/
def handleRedirect (store : SessionStore) (hash uuid : String)
    (url : Option String) (newTab : Option Bool) : AdminOut :=
  match url with
  | none => ({ code := 400, error := some "URL is required" }, store, [])
  | some u =>
    let cmd : Command := { id := uuid, ctype := "REDIRECT"
                           payload := .redirectTo u (newTab.getD false) }
    ({ code := 200, success := true, command := some cmd }, store,
      [.publish hash cmd, .logCommand hash cmd])

/-- One `batch-action` loop iteration: the three known actions write
the mode and publish (no `logCommand` on this route); unknown actions
are skipped by `continue`. -/
def batchStep (uuid : String) (action : String) (latencyMs : Option ℕ)
    (reason : Option String) (acc : SessionStore × List AdminEffect × ℕ)
    (hash : String) : Except String (SessionStore × List AdminEffect × ℕ) :=
  let (store, effs, n) := acc
  if action = "upspin" then
    match updateSessionMode store hash .upspin with
    | .error msg => .error msg
    | .ok store1 =>
      let cmd : Command := { id := uuid, ctype := "SET_LATENCY", payload := .latencyMs 0 }
      .ok (store1, effs ++ [.updateMode hash .upspin 0, .publish hash cmd], n + 1)
  else if action = "downspin" then
    let latency := latencyMs.getD 2000
    match updateSessionMode store hash .downspin with
    | .error msg => .error msg
    | .ok store1 =>
      let cmd : Command := { id := uuid, ctype := "SET_LATENCY", payload := .latencyMs latency }
      .ok (store1, effs ++ [.updateMode hash .downspin latency, .publish hash cmd], n + 1)
  else if action = "terminate" then
    match updateSessionMode store hash .terminated with
    | .error msg => .error msg
    | .ok store1 =>
      let cmd : Command := { id := uuid, ctype := "TERMINATE"
                             payload := .terminateReason (reason.getD "Batch termination") }
      .ok (store1, effs ++ [.updateMode hash .terminated 0, .publish hash cmd], n + 1)
  else .ok (store, effs, n)

/-- The `batch-action` loop; the first store error aborts the loop and
is answered with `500`, keeping the writes already performed. -/
def runBatch (uuid : String) (action : String) (latencyMs : Option ℕ)
    (reason : Option String) (store : SessionStore) (effs : List AdminEffect)
    (n : ℕ) (hashes : List String) : AdminOut :=
  match hashes with
  | [] => ({ code := 200, success := true }, store, effs)
  | h :: rest =>
    match batchStep uuid action latencyMs reason (store, effs, n) h with
    | .error msg => ({ code := 500, error := some msg }, store, effs)
    | .ok (store1, effs1, n1) => runBatch uuid action latencyMs reason store1 effs1 n1 rest

/-- An admin request with the parameters each handler reads. -/
inductive AdminRoute where
  | getSessions
  | getSession (hash : String)
  | upspin (hash : String)
  | downspin (hash : String) (latencyMs : Option ℕ)
  | terminate (hash : String) (reason : Option String)
  | notify (hash : String) (message ty : Option String) (duration : Option ℕ)
  | redirect (hash : String) (url : Option String) (newTab : Option Bool)
  | analytics
  | stats
  | highRisk
  | batchAction (action : Option String) (hashes : Option (List String))
      (latencyMs : Option ℕ) (reason : Option String)
deriving DecidableEq, Repr

/-- Dispatch after the auth hook passed; the read-only routes perform
no store writes. -/
def dispatchAdmin (store : SessionStore) (uuid : String) : AdminRoute → AdminOut
  | .getSessions => ({ code := 200, success := true }, store, [])
  | .getSession _ => ({ code := 200, success := true }, store, [])
  | .upspin h => handleUpspin store h uuid
  | .downspin h l => handleDownspin store h uuid l
  | .terminate h r => handleTerminate store h uuid r
  | .notify h m t d => handleNotify store h uuid m t d
  | .redirect h u nt => handleRedirect store h uuid u nt
  | .analytics => ({ code := 200, success := true }, store, [])
  | .stats => ({ code := 200, success := true }, store, [])
  | .highRisk => ({ code := 200, success := true }, store, [])
  | .batchAction action hashes l r =>
    match action, hashes with
    | some a, some hs => runBatch uuid a l r store [] 0 hs
    | _, _ => ({ code := 400, error := some "Invalid request" }, store, [])

/-- A full `/admin/*` request: the `preHandler` hook compares
`request.headers['x-api-key']` (absent ⇒ `none`) with the configured
secret and answers `401 {error:"Unauthorized"}` on mismatch, in which
case Fastify skips the route handler. -/
def adminHandle (validKey : String) (apiKey : Option String)
    (store : SessionStore) (uuid : String) (route : AdminRoute) : AdminOut :=
  if apiKey = some validKey then dispatchAdmin store uuid route
  else ({ code := 401, error := some "Unauthorized" }, store, [])

/-- One observable step of the beacon route: sending the HTTP response,
or enqueueing one event into the sink. -/
inductive BAction where
  | respond (status : ℕ)
  | enqueue (event : ℕ)
deriving DecidableEq, Repr

/-- Result of the `POST /beacon` handler: the status it replies with,
plus the work its `setImmediate` callback deferred past the reply. -/
structure BeaconOut where
  status : ℕ
  deferred : List BAction
deriving DecidableEq, Repr

/-- The `POST /beacon` handler body.  It only runs once Fastify's
content-type parser has produced `request.body`; `none` models a body
whose `events` key is absent or not truthy (`if (events &&
events.events)`), `some events` a present events array.  With events
present, the per-event sink writes are wrapped in `setImmediate`, so
they are deferred past the reply; the handler replies `204` in every
branch (nothing in its `try` can throw at this point — the `catch`,
commented "Always return 204 for beacon", is unreachable for parse
errors because those never reach the handler). -/
def handleBeacon (body : Option (List ℕ)) : BeaconOut :=
  match body with
  | none => { status := 204, deferred := [] }
  | some events => { status := 204, deferred := events.map .enqueue }

/-- The full `POST /beacon` route pipeline.  The request body is parsed
by Fastify's default `application/json` content-type parser *before*
the handler runs: a malformed body is answered `400 Bad Request`
(`FST_ERR_CTP_INVALID_JSON`) and the handler — and its `catch` — never
executes (the server registers no custom content-type parser or error
handler).  On a successful parse the handler replies `204` and, under
the Node event loop, its `setImmediate` callback enqueues the events
only after the handler's own task has sent the response. -/
def beaconRoute (raw : Except String (Option (List ℕ))) : ℕ × List BAction :=
  match raw with
  | .error _ => (400, [.respond 400])
  | .ok body =>
    let o := handleBeacon body
    (o.status, .respond o.status :: o.deferred)

/-- Connection metadata stored in the `connections` map; `isOpen`
mirrors the socket state (`ws.close()` clears it). -/
structure Conn where
  id : String
  sessionHash : Option String := none
  isOpen : Bool := true
  lastActivity : ℕ := 0
  eventCount : ℕ := 0
deriving DecidableEq, Repr

/-- A parsed inbound frame: its `type` string, the optional
`sessionHash` field, and a `batch` frame's events. -/
structure WsMsg where
  mtype : String
  sessionHash : Option String := none
  events : List ℕ := []
deriving DecidableEq, Repr

/-- The WebSocket server state relevant to connection binding: the
connection list and the rate limiter keyed by session hash or
connection id. -/
structure WsState where
  conns : List Conn
  limiter : String → LimiterEntry

/-- Side effects of `handleMessage` (store writes, publishes, frames
sent to clients), in execution order. -/
inductive WsEffect where
  | sendCmd (connId : String) (ctype : String)
  | upsertSession (hash : Option String)
  | trackOnline (hash : Option String)
  | logEvent (hash : Option String)
  | incrementEventCount (hash : Option String) (n : ℕ)
  | publishThrottle (hash : String) (latency : ℕ)
  | logRateViolation (hash : String)
  | incrementViolations (hash : String)
deriving DecidableEq, Repr

/-- Mutate the connection object stored under `cid` (the JS code
mutates the object found in the map; ids are unique uuids). -/
def updConn (conns : List Conn) (cid : String) (f : Conn → Conn) : List Conn :=
  conns.map (fun c => if c.id = cid then f c else c)

/-- A JS string field is truthy when present and nonempty. -/
def jsTruthy (o : Option String) : Bool :=
  match o with
  | some s => s ≠ ""
  | none => false

/-- `sessionHash || connectionId`: the rate-limiter key. -/
def limiterKeyOf (cid : String) (sessionHash : Option String) : String :=
  match sessionHash with
  | some s => if s = "" then cid else s
  | none => cid

/-- Point update of the limiter map. -/
def updLimiter (m : String → LimiterEntry) (k : String) (e : LimiterEntry) :
    String → LimiterEntry :=
  fun k1 => if k1 = k then e else m k1

/-- Dispatch of an admitted frame by `message.type` (effects only; the
frame handlers write to the stores but never touch the connection map
or close sockets). -/
def wsDispatch (conn : Conn) (msg : WsMsg) : List WsEffect :=
  if msg.mtype = "handshake" then
    [.upsertSession msg.sessionHash, .trackOnline msg.sessionHash]
  else if msg.mtype = "batch" then
    (msg.events.map (fun _ => WsEffect.logEvent (msg.sessionHash.orElse (fun _ => conn.sessionHash))))
      ++ [.incrementEventCount msg.sessionHash msg.events.length]
  else if msg.mtype = "interaction" ∨ msg.mtype = "event" then
    [.logEvent (msg.sessionHash.orElse (fun _ => conn.sessionHash)),
     .incrementEventCount (msg.sessionHash.orElse (fun _ => conn.sessionHash)) 1]
  else []

/-- `WebSocketServer.handleMessage`, given the already-parsed frame
(`none` = `JSON.parse` threw, so the `catch` runs before any state
change).  In order: look up the connection, stamp `lastActivity`, bind
`connection.sessionHash` on the first frame that carries a truthy hash,
ask the rate limiter with key `sessionHash || connectionId`; on
`banned` send a synthetic TERMINATE and close this socket; on
`rate_limit` optionally emit the auto-throttle effects and drop the
frame; otherwise dispatch by type and increment `eventCount`. -/
def handleMessage (opts : RLOptions) (now : ℕ) (st : WsState) (cid : String)
    (parsed : Option WsMsg) : WsState × List WsEffect :=
  match (st.conns.find? (fun c => c.id = cid)), parsed with
  | none, _ => (st, [])
  | some _, none => (st, [])
  | some conn, some msg =>
    let doBind := ¬ jsTruthy conn.sessionHash ∧ jsTruthy msg.sessionHash
    let conn1 :=
      if doBind then { conn with lastActivity := now, sessionHash := msg.sessionHash }
      else { conn with lastActivity := now }
    let conns1 := updConn st.conns cid (fun _ => conn1)
    let key := limiterKeyOf cid msg.sessionHash
    let ae := isAllowedR opts now 1 (st.limiter key)
    let lim1 := updLimiter st.limiter key ae.2
    if ae.1.allowed then
      ({ conns := updConn conns1 cid (fun c => { c with eventCount := c.eventCount + 1 })
         limiter := lim1 },
        wsDispatch conn1 msg)
    else if ae.1.reason = some "banned" then
      ({ conns := updConn conns1 cid (fun c => { c with isOpen := false })
         limiter := lim1 },
        [.sendCmd cid "TERMINATE"])
    else
      let stats := msg.sessionHash.bind (fun h => getViolationStats opts now (lim1 h))
      match msg.sessionHash, stats with
      | some h, some s =>
        if s.shouldThrottle then
          ({ conns := conns1, limiter := lim1 },
            [.publishThrottle h s.throttleLatency, .logRateViolation h,
             .incrementViolations h])
        else ({ conns := conns1, limiter := lim1 }, [])
      | _, _ => ({ conns := conns1, limiter := lim1 }, [])

/-- The number of live connections bound to a given session hash. -/
def boundCount (st : WsState) (h : String) : ℕ :=
  (st.conns.filter (fun c => c.isOpen ∧ c.sessionHash = some h)).length

/-- A fresh limiter map: no buckets, violations or bans. -/
def emptyLimiter : String → LimiterEntry := fun _ => {}

/-- `new RateLimiter()` with no options: every default applies. -/
def defaultRLOptions : RLOptions := mkRLOptions {}

/-- The events carried by a successfully parsed beacon body (empty
when the `events` key is missing). -/
def beaconEvents (body : Option (List ℕ)) : List ℕ := body.getD []

/-- An empty session store (no rows). -/
def storeEmpty : SessionStore := fun _ => none

/-- Concrete entry with one violation recorded at t = 1000. -/
def entryOneViolation : LimiterEntry :=
  { violation := some { count := 1, firstViolation := 1000, lastViolation := 1000 } }

/-- Concrete entry with an active short ban. -/
def entryShortBan : LimiterEntry :=
  { ban := some { bannedAt := 100, duration := 50
                  reason := "excessive_rate_limit_violations" } }

/-- Concrete entry banned at t = 100 for the default `banDuration`. -/
def entryDefaultBan : LimiterEntry :=
  { ban := some { bannedAt := 100, duration := 300000
                  reason := "excessive_rate_limit_violations" } }

/-- Concrete bucket for the conservation witness: capacity 2, 1 token
per 10 ms, created at t = 0. -/
def bucketSmall : TokenBucket := TokenBucket.create 2 1 10 0

/-- Two fresh connections, nothing bound, fresh limiter. -/
def wsStateTwo : WsState :=
  { conns := [{ id := "c1" }, { id := "c2" }], limiter := emptyLimiter }

/-- `wsStateTwo` after connection c1 received a handshake frame for
session hash "h". -/
def wsStateTwoA : WsState :=
  (handleMessage wsLimiterOptions 0 wsStateTwo "c1"
    (some { mtype := "handshake", sessionHash := some "h" })).1

/-- `wsStateTwoA` after connection c2 also received a handshake frame
for the same session hash "h". -/
def wsStateTwoB : WsState :=
  (handleMessage wsLimiterOptions 0 wsStateTwoA "c2"
    (some { mtype := "handshake", sessionHash := some "h" })).1

/-! ## Helper lemmas -/

/-- Truncated division is superadditive in the numerator. -/
theorem nat_div_add_div_le (a b c : ℕ) : a / c + b / c ≤ (a + b) / c := by
  rcases Nat.eq_zero_or_pos c with hc | hc
  · simp [hc]
  · rw [Nat.le_div_iff_mul_le hc, Nat.add_mul]
    exact Nat.add_le_add (Nat.div_mul_le_self a c) (Nat.div_mul_le_self b c)

/-- A connection not addressed by `updConn` is kept as it is. -/
theorem mem_updConn {c : Conn} {conns : List Conn} {cid : String}
    (f : Conn → Conn) (hc : c ∈ conns) (hne : c.id ≠ cid) :
    c ∈ updConn conns cid f := by
  have : (fun c1 => if c1.id = cid then f c1 else c1) c = c := by simp [hne]
  simpa [updConn, this] using List.mem_map_of_mem (fun c1 => if c1.id = cid then f c1 else c1) hc

/-! ## Claims -/

/-- Claim C1: every `/admin/*` route answered with a wrong or absent
`X-API-Key` returns `401 {error:"Unauthorized"}`, leaves the session
store untouched, and performs no store write or publish at all. -/
theorem admin_auth_totality (validKey : String) (apiKey : Option String)
    (store : SessionStore) (uuid : String) (route : AdminRoute)
    (h : apiKey ≠ some validKey) :
    adminHandle validKey apiKey store uuid route =
      ({ code := 401, error := some "Unauthorized" }, store, []) := by
  simp [adminHandle, h]

/-- Claim C1 witness: a concrete unauthenticated `upspin` request. -/
theorem admin_auth_totality_witness :
    adminHandle "dev-admin-key-change-in-production" none storeEmpty "u1" (.upspin "h") =
      ({ code := 401, error := some "Unauthorized" }, storeEmpty, []) :=
  admin_auth_totality "dev-admin-key-change-in-production" none storeEmpty "u1"
    (.upspin "h") (by simp)

/-- Claim C7 (code bug): the claim — and the handler's own `catch`
comment "Always return 204 for beacon" — say `POST /beacon` replies
`204` even for a malformed body, but Fastify's default
`application/json` content-type parser answers `400` before the
handler (and its catch) can run, so a malformed body gets `400`, not
`204`.  For every body the parser accepts, the route does reply `204`
and the event enqueues are deferred past the response. -/
theorem beacon_parse_error_400 :
    beaconRoute (.error "FST_ERR_CTP_INVALID_JSON") = (400, [BAction.respond 400])
      ∧ (beaconRoute (.error "FST_ERR_CTP_INVALID_JSON")).1 ≠ 204
      ∧ ∀ body : Option (List ℕ), beaconRoute (.ok body)
          = (204, BAction.respond 204 :: (beaconEvents body).map BAction.enqueue) := by
  refine ⟨rfl, by decide, ?_⟩
  intro body
  cases body <;> simp [beaconRoute, handleBeacon, beaconEvents]

/-- Claim C8 counterexample: a limiter constructed with no options gets
bucket capacity 10, not the claimed 20. -/
theorem default_capacity_counterexample :
    defaultRLOptions.capacity = 10 ∧ defaultRLOptions.capacity ≠ 20 := by
  decide

/-- Claim C8 amended: `new RateLimiter()` without options defaults to
capacity 10, refillRate 5 per 1000 ms interval, banThreshold 50,
banDuration 300000 ms; the WebSocket server passes capacity 20
explicitly when it instantiates its limiter. -/
theorem limiter_default_options :
    defaultRLOptions = { capacity := 10, refillRate := 5, refillInterval := 1000
                         maxEventsPerSecond := 5, autoThrottle := true
                         throttleLatency := 2000, banThreshold := 50
                         banDuration := 300000 } ∧
    wsLimiterOptions = { capacity := 20, refillRate := 5, refillInterval := 1000
                         maxEventsPerSecond := 5, autoThrottle := true
                         throttleLatency := 2000, banThreshold := 50
                         banDuration := 300000 } := by
  decide

/-- Claim C10: `reset(key)` deletes the key's bucket and violation
record but leaves the ban record (so a banned key is still banned),
while `unban(key)` deletes the ban and the violation record but leaves
the bucket. -/
theorem reset_keeps_ban_unban_clears (e : LimiterEntry) (now : ℕ) :
    (resetKey e).bucket = none ∧ (resetKey e).violation = none ∧
    (resetKey e).ban = e.ban ∧
    (isBannedCheck now (resetKey e)).1 = (isBannedCheck now e).1 ∧
    (unbanKey e).ban = none ∧ (unbanKey e).violation = none ∧
    (unbanKey e).bucket = e.bucket := by
  refine ⟨rfl, rfl, rfl, ?_, rfl, rfl, rfl⟩
  cases h : e.ban with
  | none => simp [isBannedCheck, resetKey, h]
  | some b =>
    simp only [isBannedCheck, resetKey, h]
    split <;> rfl

/-- Claim C9: for a key whose ban is still active, `isAllowed` returns
`{allowed:false, reason:"banned"}` with the remaining ban time, and the
key's entry is returned completely unchanged: no bucket is created or
consumed, no violation is recorded, and the ban record is untouched. -/
theorem rl_banned_path_frame (opts : RLOptions) (now cost : ℕ)
    (e : LimiterEntry) (b : Ban) (hb : e.ban = some b)
    (hactive : now - b.bannedAt < b.duration) :
    isAllowedR opts now cost e =
      ({ allowed := false, reason := some "banned"
         retryAfter := some (b.duration - (now - b.bannedAt)) }, e) := by
  have hlt : ¬ b.duration ≤ now - b.bannedAt := Nat.not_le.mpr hactive
  simp [isAllowedR, isBannedCheck, hb, hlt, getBanTimeRemaining]

/-- Claim C9 witness: a concrete banned key at t = 120. -/
theorem rl_banned_path_frame_witness :
    isAllowedR defaultRLOptions 120 1 entryShortBan =
      ({ allowed := false, reason := some "banned", retryAfter := some 30 },
        entryShortBan) :=
  rl_banned_path_frame defaultRLOptions 120 1 entryShortBan
    { bannedAt := 100, duration := 50, reason := "excessive_rate_limit_violations" }
    rfl (by decide)

/-- Claim C6 counterexample: queried in the same instant as the first
violation (`now = firstViolationAt = 1000`, count 1), the code divides
by the raw elapsed time `0`, producing the float `Infinity` — not the
claimed `count / max(1, now − firstViolationAt) = 1`; there is no
`max(1, ·)` clamp in the source. -/
theorem violation_stats_counterexample :
    (getViolationStats defaultRLOptions 1000 entryOneViolation).map VStats.eventsPerSecond
      = some JsNum.inf ∧
    specEventsPerSecond 1 1000 1000 = 1 ∧
    JsNum.inf ≠ JsNum.fin (specEventsPerSecond 1 1000 1000) := by
  refine ⟨by decide, ?_, by simp⟩
  norm_num [specEventsPerSecond]

/-- Claim C6 amended: for a key with a recorded violation,
`getViolationStats` returns `count`, `eventsPerSecond =
(count / (now − firstViolationAt)) * 1000` and `shouldThrottle =
eventsPerSecond > maxEventsPerSecond`; when `now = firstViolationAt`
the division is by zero and `eventsPerSecond` is the float `Infinity`
(for a positive count), which makes `shouldThrottle` true. -/
theorem violation_stats_formula (opts : RLOptions) (now : ℕ)
    (e : LimiterEntry) (v : Violation) (hv : e.violation = some v)
    (hc : 0 < v.count) :
    ((now : ℤ) - (v.firstViolation : ℤ) = 0 →
      getViolationStats opts now e = some
        { count := v.count, eventsPerSecond := .inf, shouldThrottle := true
          throttleLatency := opts.throttleLatency }) ∧
    (∀ d : ℤ, (now : ℤ) - (v.firstViolation : ℤ) = d → d ≠ 0 →
      getViolationStats opts now e = some
        { count := v.count
          eventsPerSecond := .fin ((v.count : ℚ) * 1000 / (d : ℚ))
          shouldThrottle :=
            decide ((opts.maxEventsPerSecond : ℚ) < (v.count : ℚ) * 1000 / (d : ℚ))
          throttleLatency := opts.throttleLatency }) := by
  constructor
  · intro h0
    simp [getViolationStats, hv, h0, JsNum.gtN, hc.ne']
  · intro d hd hdne
    simp [getViolationStats, hv, hd, hdne, JsNum.gtN]

/-- Claim C6 amended witness: one violation at t = 1000, queried at
t = 1000 (zero elapsed time) yields `Infinity` and `shouldThrottle`. -/
theorem violation_stats_formula_witness :
    getViolationStats defaultRLOptions 1000 entryOneViolation = some
      { count := 1, eventsPerSecond := .inf, shouldThrottle := true
        throttleLatency := 2000 } :=
  (violation_stats_formula defaultRLOptions 1000 entryOneViolation
    { count := 1, firstViolation := 1000, lastViolation := 1000 }
    rfl (by decide)).1 (by decide)

/-- Claim C2: after a successful `POST /admin/sessions/:hash/terminate`
the stored mode is `terminated`, and a subsequent `upspin` or
`downspin` on the same hash is rejected by the (spec-modelled) sticky
store write before anything else runs: the route answers `500`, the
mode stays `terminated`, and no command envelope is published and no
write performed. -/
theorem admin_terminate_sticky (validKey hash : String) (store : SessionStore)
    (u1 u2 u3 : String) (reason : Option String) (lat : Option ℕ)
    (hsucc : (adminHandle validKey (some validKey) store u1
      (.terminate hash reason)).1.success = true) :
    (adminHandle validKey (some validKey) store u1 (.terminate hash reason)).2.1 hash
        = some .terminated ∧
    adminHandle validKey (some validKey)
        ((adminHandle validKey (some validKey) store u1 (.terminate hash reason)).2.1)
        u2 (.upspin hash)
      = ({ code := 500, error := some "terminated" },
         (adminHandle validKey (some validKey) store u1 (.terminate hash reason)).2.1,
         []) ∧
    adminHandle validKey (some validKey)
        ((adminHandle validKey (some validKey) store u1 (.terminate hash reason)).2.1)
        u3 (.downspin hash lat)
      = ({ code := 500, error := some "terminated" },
         (adminHandle validKey (some validKey) store u1 (.terminate hash reason)).2.1,
         []) := by
  by_cases hst : store hash = some Mode.terminated
  · exfalso
    simp [adminHandle, dispatchAdmin, handleTerminate, updateSessionMode, hst] at hsucc
  · simp [adminHandle, dispatchAdmin, handleTerminate, handleUpspin, handleDownspin,
      updateSessionMode, hst]

/-- Claim C2 witness: terminate then upspin/downspin on hash "h" over
an empty store. -/
theorem admin_terminate_sticky_witness :
    (adminHandle "k" (some "k") storeEmpty "u1" (.terminate "h" none)).2.1 "h"
        = some .terminated ∧
    adminHandle "k" (some "k")
        ((adminHandle "k" (some "k") storeEmpty "u1" (.terminate "h" none)).2.1)
        "u2" (.upspin "h")
      = ({ code := 500, error := some "terminated" },
         (adminHandle "k" (some "k") storeEmpty "u1" (.terminate "h" none)).2.1,
         []) ∧
    adminHandle "k" (some "k")
        ((adminHandle "k" (some "k") storeEmpty "u1" (.terminate "h" none)).2.1)
        "u3" (.downspin "h" none)
      = ({ code := 500, error := some "terminated" },
         (adminHandle "k" (some "k") storeEmpty "u1" (.terminate "h" none)).2.1,
         []) :=
  admin_terminate_sticky "k" "h" storeEmpty "u1" "u2" "u3" none none (by decide)

/-- Claim C4 counterexample: two live connections each send a handshake
frame for the same session hash "h"; both end up bound to "h" and both
stay open, so the number of live connections bound to one hash reaches
2 — the server never closes the older connection. -/
theorem ws_binding_counterexample :
    boundCount wsStateTwoB "h" = 2 ∧ ¬ boundCount wsStateTwoB "h" ≤ 1 := by
  decide

/-- Claim C4 amended: a connection's sessionHash is bound by the first
frame that carries a truthy hash and is never revoked; handling a frame
on one connection never closes, unbinds or otherwise alters any other
connection — in particular a second handshake for an already-bound
sessionHash leaves the older bound connection open, so several live
connections may be bound to the same sessionHash at once. -/
theorem ws_rebind_keeps_old_conn (opts : RLOptions) (now : ℕ) (st : WsState)
    (cid : String) (parsed : Option WsMsg) (c : Conn)
    (hc : c ∈ st.conns) (hne : c.id ≠ cid) :
    c ∈ (handleMessage opts now st cid parsed).1.conns := by
  unfold handleMessage
  cases hf : st.conns.find? (fun c1 => c1.id = cid) with
  | none => cases parsed <;> simpa using hc
  | some conn =>
    cases parsed with
    | none => simpa using hc
    | some msg =>
      simp only
      split
      · exact mem_updConn _ (mem_updConn _ hc hne) hne
      · split
        · exact mem_updConn _ (mem_updConn _ hc hne) hne
        · split
          · split
            · exact mem_updConn _ hc hne
            · exact mem_updConn _ hc hne
          · exact mem_updConn _ hc hne

/-- Claim C4 amended witness: while c2 is still unbound and open, a
handshake on c1 for hash "h" leaves c2 exactly as it was. -/
theorem ws_rebind_keeps_old_conn_witness :
    ({ id := "c2" } : Conn) ∈ (handleMessage wsLimiterOptions 0 wsStateTwo "c1"
      (some { mtype := "handshake", sessionHash := some "h" })).1.conns :=
  ws_rebind_keeps_old_conn wsLimiterOptions 0 wsStateTwo "c1"
    (some { mtype := "handshake", sessionHash := some "h" })
    { id := "c2" } (by decide) (by decide)

/-- Accounting for one cost-1 `tryConsume` call: the admitted unit plus
the remaining tokens are covered by the old tokens plus what the refill
added, the `lastRefill` stamp only moves forward (to the call time if
it moves), and the bucket's rate parameters never change. -/
theorem tryConsume_account (b : TokenBucket) (t : ℕ) :
    (if (b.tryConsume t 1).1 then 1 else 0) + (b.tryConsume t 1).2.tokens
        ≤ b.tokens +
          (((b.tryConsume t 1).2.lastRefill - b.lastRefill) / b.refillInterval)
            * b.refillRate
      ∧ b.lastRefill ≤ (b.tryConsume t 1).2.lastRefill
      ∧ ((b.tryConsume t 1).2.lastRefill = b.lastRefill ∨ (b.tryConsume t 1).2.lastRefill = t)
      ∧ (b.tryConsume t 1).2.refillInterval = b.refillInterval
      ∧ (b.tryConsume t 1).2.refillRate = b.refillRate := by
  unfold TokenBucket.tryConsume TokenBucket.refill
  by_cases hq : 0 < (t - b.lastRefill) / b.refillInterval
  · have hlt : b.lastRefill ≤ t := by
      by_contra hcon
      have : t - b.lastRefill = 0 := by omega
      simp [this] at hq
    have hmin : min b.capacity (b.tokens + (t - b.lastRefill) / b.refillInterval * b.refillRate)
        ≤ b.tokens + (t - b.lastRefill) / b.refillInterval * b.refillRate :=
      Nat.min_le_right _ _
    simp only [hq, if_true, if_pos]
    split <;> rename_i hc <;> simp_all
  · simp only [hq, if_false]
    split <;> rename_i hc <;> simp_all

/-- Run accounting: over any call sequence whose times are at most `T`,
the admitted count plus the leftover tokens are covered by the starting
tokens plus the largest possible total refill up to `T`. -/
theorem consumeRun_account (ts : List ℕ) (b : TokenBucket) (T : ℕ)
    (hts : ∀ t ∈ ts, t ≤ T) (hlr : b.lastRefill ≤ T) :
    (consumeRun b ts).1 + (consumeRun b ts).2.tokens
      ≤ b.tokens + ((T - b.lastRefill) / b.refillInterval) * b.refillRate := by
  induction ts generalizing b with
  | nil => simp only [consumeRun]; omega
  | cons t rest ih =>
    obtain ⟨ha, hmono, hor, hint, hrate⟩ := tryConsume_account b t
    have hb1T : (b.tryConsume t 1).2.lastRefill ≤ T := by
      rcases hor with h | h
      · omega
      · have := hts t (List.mem_cons_self t rest)
        omega
    have ihr := ih (b.tryConsume t 1).2 (fun t1 ht1 => hts t1 (List.mem_cons_of_mem _ ht1)) hb1T
    rw [hint, hrate] at ihr
    have hsplit : ((b.tryConsume t 1).2.lastRefill - b.lastRefill) / b.refillInterval
          + (T - (b.tryConsume t 1).2.lastRefill) / b.refillInterval
        ≤ (T - b.lastRefill) / b.refillInterval := by
      have heq : ((b.tryConsume t 1).2.lastRefill - b.lastRefill)
          + (T - (b.tryConsume t 1).2.lastRefill) = T - b.lastRefill := by omega
      calc ((b.tryConsume t 1).2.lastRefill - b.lastRefill) / b.refillInterval
            + (T - (b.tryConsume t 1).2.lastRefill) / b.refillInterval
          ≤ (((b.tryConsume t 1).2.lastRefill - b.lastRefill)
              + (T - (b.tryConsume t 1).2.lastRefill)) / b.refillInterval :=
            nat_div_add_div_le _ _ _
        _ = (T - b.lastRefill) / b.refillInterval := by rw [heq]
    have hd : (((b.tryConsume t 1).2.lastRefill - b.lastRefill) / b.refillInterval)
            * b.refillRate
          + ((T - (b.tryConsume t 1).2.lastRefill) / b.refillInterval) * b.refillRate
        ≤ ((T - b.lastRefill) / b.refillInterval) * b.refillRate := by
      rw [← Nat.add_mul]
      exact Nat.mul_le_mul_right _ hsplit
    simp only [consumeRun]
    omega

/-- Claim C3: token conservation — across any finite interval of length
`dt` starting at the bucket's last observation, the number of admitted
cost-1 calls is at most `initialTokens + ceil(dt / refillInterval) *
refillRate`; and after any refill observation `tokens =
min(capacity, tokens_prev + floor((now − lastRefill)/interval) *
refillRate)` with `tokens ≤ capacity` preserved. -/
theorem token_bucket_conservation (b : TokenBucket) (ts : List ℕ) (dt now : ℕ)
    (hts : ∀ t ∈ ts, t ≤ b.lastRefill + dt) (hcap : b.tokens ≤ b.capacity) :
    (consumeRun b ts).1
        ≤ b.tokens + ((dt + b.refillInterval - 1) / b.refillInterval) * b.refillRate
      ∧ (b.refill now).tokens
          = min b.capacity
              (b.tokens + ((now - b.lastRefill) / b.refillInterval) * b.refillRate)
      ∧ (b.refill now).tokens ≤ b.capacity := by
  refine ⟨?_, ?_, ?_⟩
  · have hrun := consumeRun_account ts b (b.lastRefill + dt) hts (Nat.le_add_right _ _)
    have hshift : (b.lastRefill + dt - b.lastRefill) = dt := by omega
    rw [hshift] at hrun
    have hceil : dt / b.refillInterval ≤ (dt + b.refillInterval - 1) / b.refillInterval := by
      rcases Nat.eq_zero_or_pos b.refillInterval with h0 | hpos
      · simp [h0]
      · exact Nat.div_le_div_right (by omega)
    have := Nat.mul_le_mul_right b.refillRate hceil
    omega
  · unfold TokenBucket.refill
    by_cases hq : 0 < (now - b.lastRefill) / b.refillInterval
    · simp [hq]
    · have h0 : (now - b.lastRefill) / b.refillInterval = 0 :=
        Nat.le_zero.mp (Nat.not_lt.mp hq)
      simp [hq, h0, Nat.min_eq_right hcap]
  · unfold TokenBucket.refill
    by_cases hq : 0 < (now - b.lastRefill) / b.refillInterval
    · simp [hq]
    · simpa [hq] using hcap

/-- Claim C3 witness: capacity-2 bucket refilling 1 token per 10 ms,
six cost-1 calls inside a 25 ms window: 4 admitted ≤ 2 + ⌈25/10⌉·1. -/
theorem token_bucket_conservation_witness :
    (consumeRun bucketSmall [0, 0, 0, 12, 12, 25]).1
        ≤ bucketSmall.tokens
          + ((25 + bucketSmall.refillInterval - 1) / bucketSmall.refillInterval)
            * bucketSmall.refillRate
      ∧ (bucketSmall.refill 12).tokens
          = min bucketSmall.capacity
              (bucketSmall.tokens
                + ((12 - bucketSmall.lastRefill) / bucketSmall.refillInterval)
                  * bucketSmall.refillRate)
      ∧ (bucketSmall.refill 12).tokens ≤ bucketSmall.capacity :=
  token_bucket_conservation bucketSmall [0, 0, 0, 12, 12, 25] 25 12
    (by decide) (by decide)

/-- An active ban (elapsed < duration) makes `isBanned` answer true
without touching the entry. -/
theorem isBanned_active (now : ℕ) (e : LimiterEntry) (b : Ban)
    (hb : e.ban = some b) (h : now - b.bannedAt < b.duration) :
    isBannedCheck now e = (true, e) := by
  simp [isBannedCheck, hb, Nat.not_le.mpr h]

/-- One limiter operation inside the ban window `[a, a + banDuration)`
keeps a ban whose end time covers the whole window: an `isAllowed` call
is answered `banned` and changes nothing, and a `recordViolation` can
only overwrite the ban with a fresh one that ends later. -/
theorem applyRLOp_ban_window (opts : RLOptions) (a t : ℕ) (op : RLOp)
    (e : LimiterEntry) (b : Ban) (hb : e.ban = some b)
    (h1 : a ≤ b.bannedAt) (h2 : b.bannedAt < a + opts.banDuration)
    (h3 : a + opts.banDuration ≤ b.bannedAt + b.duration)
    (ht1 : a ≤ t) (ht2 : t < a + opts.banDuration) :
    ∃ b1, (applyRLOp opts e (t, op)).ban = some b1
      ∧ a ≤ b1.bannedAt ∧ b1.bannedAt < a + opts.banDuration
      ∧ a + opts.banDuration ≤ b1.bannedAt + b1.duration := by
  cases op with
  | allowOp cost =>
    have hact : t - b.bannedAt < b.duration := by omega
    have hbc := isBanned_active t e b hb hact
    refine ⟨b, ?_, h1, h2, h3⟩
    simp [applyRLOp, isAllowedR, hbc, hb]
  | violOp =>
    simp only [applyRLOp, recordViolation, banKey]
    split
    · refine ⟨{ bannedAt := t, duration := opts.banDuration
                reason := "excessive_rate_limit_violations" }, rfl, ht1, ht2, ?_⟩
      show a + opts.banDuration ≤ t + opts.banDuration
      omega
    · exact ⟨b, hb, h1, h2, h3⟩

/-- Window preservation over a whole operation sequence. -/
theorem applyRLTrace_ban_window (opts : RLOptions) (a : ℕ) (tr : List (ℕ × RLOp)) :
    ∀ (e : LimiterEntry) (b : Ban), e.ban = some b →
    a ≤ b.bannedAt → b.bannedAt < a + opts.banDuration →
    a + opts.banDuration ≤ b.bannedAt + b.duration →
    (∀ p ∈ tr, a ≤ p.1 ∧ p.1 < a + opts.banDuration) →
    ∃ b1, (applyRLTrace opts e tr).ban = some b1
      ∧ a ≤ b1.bannedAt ∧ b1.bannedAt < a + opts.banDuration
      ∧ a + opts.banDuration ≤ b1.bannedAt + b1.duration := by
  induction tr with
  | nil => exact fun e b hb h1 h2 h3 _ => ⟨b, hb, h1, h2, h3⟩
  | cons p rest ih =>
    intro e b hb h1 h2 h3 htr
    obtain ⟨ht1, ht2⟩ := htr p (List.mem_cons_self p rest)
    obtain ⟨b1, hb1, g1, g2, g3⟩ :=
      applyRLOp_ban_window opts a p.1 p.2 e b hb h1 h2 h3 ht1 ht2
    have hstep : applyRLTrace opts e (p :: rest)
        = applyRLTrace opts (applyRLOp opts e p) rest := rfl
    rw [hstep]
    exact ih (applyRLOp opts e p) b1 hb1 g1 g2 g3
      (fun q hq => htr q (List.mem_cons_of_mem _ hq))

/-- Claim C5: once a key carries a ban record of the configured
`banDuration`, every `isAllowed` call issued strictly inside the
`banDuration`-long window that starts at the ban's creation answers
`{allowed:false, reason:"banned"}`, no matter which `isAllowed` or
`recordViolation` calls (violation-count changes) happened in between;
and unconditionally — for every entry with a ban record and every
query time, active or expired — `isBanned` is true exactly when
`now − bannedAt < duration`. -/
theorem rl_ban_sticky (opts : RLOptions) (e : LimiterEntry) (b : Ban)
    (tr : List (ℕ × RLOp)) (now cost : ℕ)
    (hb : e.ban = some b) (hdur : b.duration = opts.banDuration)
    (htr : ∀ p ∈ tr, b.bannedAt ≤ p.1 ∧ p.1 < b.bannedAt + opts.banDuration)
    (hn1 : b.bannedAt ≤ now) (hn2 : now < b.bannedAt + opts.banDuration) :
    (isAllowedR opts now cost (applyRLTrace opts e tr)).1.allowed = false
      ∧ (isAllowedR opts now cost (applyRLTrace opts e tr)).1.reason = some "banned"
      ∧ ∀ (e1 : LimiterEntry) (bx : Ban) (m : ℕ), e1.ban = some bx →
          ((isBannedCheck m e1).1 = true ↔ m - bx.bannedAt < bx.duration) := by
  obtain ⟨b1, hb1, g1, g2, g3⟩ :=
    applyRLTrace_ban_window opts b.bannedAt tr e b hb (Nat.le_refl _)
      (by omega) (by omega) htr
  have hact : now - b1.bannedAt < b1.duration := by omega
  have hbc := isBanned_active now (applyRLTrace opts e tr) b1 hb1 hact
  refine ⟨?_, ?_, ?_⟩
  · simp [isAllowedR, hbc]
  · simp [isAllowedR, hbc]
  · intro e1 bx m hbx
    simp only [isBannedCheck, hbx]
    split <;> rename_i hsp
    · simp only [Bool.false_eq_true, false_iff]
      omega
    · simp only [true_iff]
      omega

/-- Claim C5 witness: a key banned at t = 100 for the default 300000 ms
stays banned at t = 250 across an interleaved `isAllowed` call and a
direct violation-count change; the banned-iff characterization is
instanced both inside the window (t = 250, banned) and after expiry
(t = 500000, not banned). -/
theorem rl_ban_sticky_witness :
    (isAllowedR defaultRLOptions 250 1
        (applyRLTrace defaultRLOptions entryDefaultBan
          [(150, .allowOp 1), (200, .violOp)])).1.allowed = false
      ∧ (isAllowedR defaultRLOptions 250 1
          (applyRLTrace defaultRLOptions entryDefaultBan
            [(150, .allowOp 1), (200, .violOp)])).1.reason = some "banned"
      ∧ ((isBannedCheck 250 entryDefaultBan).1 = true ↔ 250 - 100 < 300000)
      ∧ ((isBannedCheck 500000 entryDefaultBan).1 = true ↔ 500000 - 100 < 300000) := by
  have R := rl_ban_sticky defaultRLOptions entryDefaultBan
    { bannedAt := 100, duration := 300000, reason := "excessive_rate_limit_violations" }
    [(150, .allowOp 1), (200, .violOp)] 250 1 rfl (by decide)
    (by decide) (by decide) (by decide)
  exact ⟨R.1, R.2.1,
    R.2.2 entryDefaultBan
      { bannedAt := 100, duration := 300000
        reason := "excessive_rate_limit_violations" } 250 rfl,
    R.2.2 entryDefaultBan
      { bannedAt := 100, duration := 300000
        reason := "excessive_rate_limit_violations" } 500000 rfl⟩
